import Mathlib

/-!
Verification of the font-feature matching engine of the `font-stealer`
repository.  The definitions below are a shallow embedding of
`src/app/lib/font-features.ts` (feature extraction, weighted distance,
similarity, nearest-neighbour search) and of the matching cascade in
`src/app/api/match/route.ts`.  JavaScript numbers are modelled as exact
rationals (`ℚ`), with transcendental operations (`Math.sqrt`, `Math.exp`,
`Math.round`) modelled over `ℝ`/`ℤ`.  JavaScript's falsy coalescing
`x || d` on numbers is modelled by `jsOr`, and `try`/`catch` around glyph
lookup is modelled by `Option`.
-/

namespace FontStealer

/-! ### Small JavaScript-semantics helpers -/

/-- `x || d` for an optional JS number: `undefined` and `0` both fall back. -/
def jsOr (v : Option ℚ) (d : ℚ) : ℚ :=
  match v with
  | none => d
  | some x => if x = 0 then d else x

/-- Strip leading and trailing whitespace (`String.prototype.trim`). -/
def trimChars (cs : List Char) : List Char :=
  ((cs.dropWhile Char.isWhitespace).reverse.dropWhile Char.isWhitespace).reverse

/-- `s.toLowerCase()`. -/
def jsToLower (s : String) : String :=
  String.mk (s.toList.map Char.toLower)

/-- `s.toLowerCase().trim()` as used throughout the matcher. -/
def jsNormLC (s : String) : String :=
  String.mk (trimChars (s.toList.map Char.toLower))

/-- `s.startsWith(pre)`. -/
def strStartsWith (s pre : String) : Bool :=
  pre.toList.isPrefixOf s.toList

/-- `s.split(' ')` on single spaces. -/
def splitWordsAux : List Char → List Char → List (List Char)
  | [], acc => [acc.reverse]
  | c :: cs, acc =>
    if c = ' ' then acc.reverse :: splitWordsAux cs []
    else splitWordsAux cs (c :: acc)

def splitWords (s : String) : List String :=
  (splitWordsAux s.toList []).map String.mk

/-- `tokens.join(' ')`. -/
def joinWords (l : List String) : String :=
  String.mk (List.intercalate [' '] (l.map String.toList))

/-- `Math.max(min, Math.min(max, value))` from `font-features.ts`. -/
def clamp (value mn mx : ℚ) : ℚ :=
  max mn (min mx value)

/-! ### Name cleanup (`cleanFamilyName` in `route.ts`) -/

/-- Hex digit in the sense of `/[0-9a-f]/i`. -/
def isHexDigitJS (c : Char) : Bool :=
  c.isDigit || ('a' ≤ c && c ≤ 'f') || ('A' ≤ c && c ≤ 'F')

/-- Word character in the sense of `/[a-zA-Z0-9_]/`. -/
def isWordCharJS (c : Char) : Bool :=
  c.isAlphanum || c = '_'

/-- `replace` of the end-anchored case-insensitive regex `-[0-9a-f]` six or
more times: drop from the leftmost `-` that is
followed only by at least six hex digits up to the end of the string. -/
def stripHexSuffix : List Char → List Char
  | [] => []
  | c :: cs =>
    if c = '-' ∧ 6 ≤ cs.length ∧ cs.all isHexDigitJS then []
    else c :: stripHexSuffix cs

/-- Whether `/__[a-zA-Z0-9_]+$/` matches at the head of the char list. -/
def uuMatch : List Char → Bool
  | c1 :: c2 :: rest => c1 = '_' && c2 = '_' && !rest.isEmpty && rest.all isWordCharJS
  | _ => false

/-- `replace(/__[a-zA-Z0-9_]+$/, '')`. -/
def stripUnderscoreSuffix : List Char → List Char
  | [] => []
  | c :: cs =>
    if uuMatch (c :: cs) then []
    else c :: stripUnderscoreSuffix cs

/-- `replace` of the end-anchored regex `-` followed by four or more digits. -/
def stripNumSuffix : List Char → List Char
  | [] => []
  | c :: cs =>
    if c = '-' ∧ 4 ≤ cs.length ∧ cs.all Char.isDigit then []
    else c :: stripNumSuffix cs

/-- `cleanFamilyName` from `route.ts`: strip a trailing hex hash, a trailing
`__`-delimited token, a trailing long numeric id, then trim. -/
def cleanFamilyName (family : String) : String :=
  String.mk (trimChars (stripNumSuffix (stripUnderscoreSuffix (stripHexSuffix family.toList))))

/-! ### Name normalisation and curated overrides (`route.ts`) -/

/-- Replace every whitespace run by a single space (`replace(/\s+/g, ' ')`). -/
def collapseWs (cs : List Char) : List Char :=
  cs.foldr
    (fun c acc =>
      if c.isWhitespace then
        match acc with
        | ' ' :: _ => acc
        | _ => ' ' :: acc
      else c :: acc)
    []

/-- `normalizeName` from `route.ts`: lower-case, strip straight and curly
apostrophes, turn hyphens into spaces, collapse whitespace, trim. -/
def normalizeName (name : String) : String :=
  let cs := name.toList.map Char.toLower
  let cs := cs.filter (fun c => !(c = '\u0027' || c = '\u2019'))
  let cs := cs.map (fun c => if c = '-' then ' ' else c)
  String.mk (trimChars (collapseWs cs))

structure NameOverrideAlt where
  family : String
  reason : String
deriving DecidableEq

/-- The curated override table `NAME_OVERRIDES`, in insertion order. -/
def NAME_OVERRIDES : List (String × List NameOverrideAlt) :=
  [("helvetica",
    [⟨"Inter", "Modern Helvetica successor for screens"⟩,
     ⟨"Roboto", "Neutral grotesque, very close letterforms"⟩,
     ⟨"Source Sans 3", "Clean neutral sans by Adobe"⟩,
     ⟨"Public Sans", "Open-source Helvetica alternative"⟩,
     ⟨"DM Sans", "Clean geometric-humanist hybrid"⟩]),
   ("helvetica neue",
    [⟨"Inter", "Modern Helvetica successor with optical sizing"⟩,
     ⟨"DM Sans", "Slightly geometric, very clean"⟩,
     ⟨"Public Sans", "Open-source Helvetica Neue alternative"⟩,
     ⟨"Roboto", "Neutral grotesque, similar proportions"⟩,
     ⟨"Source Sans 3", "Highly readable neutral sans"⟩]),
   ("sf pro",
    [⟨"Inter", "Closest free match, designed for UI like SF Pro"⟩,
     ⟨"DM Sans", "Clean geometric with similar x-height"⟩,
     ⟨"Plus Jakarta Sans", "Modern geometric display sans"⟩,
     ⟨"Albert Sans", "Geometric with similar rounded terminals"⟩,
     ⟨"Public Sans", "Neutral UI-focused sans"⟩]),
   ("proxima nova",
    [⟨"Montserrat", "Known free Proxima Nova alternative"⟩,
     ⟨"Nunito Sans", "Similar proportions and x-height"⟩,
     ⟨"Poppins", "Geometric with similar character"⟩,
     ⟨"Raleway", "Similar geometric weight range"⟩,
     ⟨"Work Sans", "Grotesque-geometric hybrid"⟩]),
   ("gotham",
    [⟨"Montserrat", "Made as a free Gotham alternative"⟩,
     ⟨"Raleway", "Similar geometric proportions"⟩,
     ⟨"Poppins", "Geometric with similar boldness"⟩,
     ⟨"Work Sans", "Wide geometric grotesque"⟩,
     ⟨"Plus Jakarta Sans", "Modern geometric sans"⟩]),
   ("futura",
    [⟨"Jost", "Directly inspired by Futura\u0027s geometry"⟩,
     ⟨"Poppins", "Geometric with similar round shapes"⟩,
     ⟨"Nunito", "Rounded geometric like Futura"⟩,
     ⟨"Quicksand", "Geometric rounded sans"⟩,
     ⟨"Montserrat", "Geometric with similar uppercase"⟩]),
   ("avenir",
    [⟨"Nunito Sans", "Very close match in feel and proportions"⟩,
     ⟨"Nunito", "Rounded geometric like Avenir"⟩,
     ⟨"Poppins", "Geometric with matching warmth"⟩,
     ⟨"Outfit", "Modern geometric, similar feel"⟩,
     ⟨"Montserrat", "Geometric with similar weight range"⟩]),
   ("circular",
    [⟨"DM Sans", "Very similar geometric proportions"⟩,
     ⟨"Plus Jakarta Sans", "Modern geometric, similar feel"⟩,
     ⟨"Albert Sans", "Geometric with similar roundness"⟩,
     ⟨"Outfit", "Clean geometric, similar character"⟩,
     ⟨"Inter", "Modern alternative, similar weight"⟩]),
   ("garamond",
    [⟨"EB Garamond", "Direct open-source Garamond revival"⟩,
     ⟨"Cormorant Garamond", "Display-oriented Garamond"⟩,
     ⟨"Crimson Pro", "Old-style with similar elegance"⟩,
     ⟨"Libre Baskerville", "Classic book serif"⟩,
     ⟨"Lora", "Contemporary old-style serif"⟩]),
   ("bodoni",
    [⟨"Playfair Display", "High-contrast display like Bodoni"⟩,
     ⟨"Libre Bodoni", "Direct open-source Bodoni"⟩,
     ⟨"Cormorant", "High-contrast elegant serif"⟩,
     ⟨"DM Serif Display", "Modern high-contrast serif"⟩,
     ⟨"Abril Fatface", "Bold Bodoni-style display"⟩])]

/-- `NAME_OVERRIDES[key]` — property lookup on the object, insertion order. -/
def lookupOverride (key : String) : Option (List NameOverrideAlt) :=
  (NAME_OVERRIDES.find? (fun p => p.1 = key)).map (·.2)

/-- The suffix-token alternatives of the `/\s+(pro|text|...)$/g` regex. -/
def overrideSuffixWords : List String :=
  ["pro", "text", "display", "round", "rounded", "neue", "next", "pt", "lt",
   "std", "mt", "regular", "bold", "light", "medium", "book", "condensed",
   "narrow", "wide", "extended", "variable", "vf", "web", "sc", "caption",
   "subhead", "headline", "title", "poster", "black", "heavy", "ultra",
   "thin", "hairline", "extra", "semi"]

/-- `replace(/\s+(pro|...)$/g, '').trim()` on an already-normalised name:
at most one whitespace-separated trailing token can match the anchored
pattern, so this is a conditional strip of the final word. -/
def stripSuffixWords (normalized : String) : String :=
  let tokens := splitWords normalized
  if 2 ≤ tokens.length ∧ tokens.getLastD "" ∈ overrideSuffixWords then
    joinWords tokens.dropLast
  else normalized

/-- `findNameOverride` from `route.ts`. -/
def findNameOverride (family : String) : Option (List NameOverrideAlt) :=
  let normalized := normalizeName family
  match lookupOverride normalized with
  | some v => some v
  | none =>
    let stripped := stripSuffixWords normalized
    match (if stripped ≠ normalized then lookupOverride stripped else none) with
    | some v => some v
    | none =>
      match NAME_OVERRIDES.find?
          (fun p => strStartsWith normalized p.1 || strStartsWith p.1 normalized) with
      | some p => some p.2
      | none =>
        let firstWord := (splitWords normalized).headD ""
        if 3 < firstWord.length then
          (NAME_OVERRIDES.find?
            (fun p => p.1 = firstWord || (splitWords p.1).headD "" = firstWord)).map (·.2)
        else none

/-! ### Catalog records and database name search -/

structure FontFeatureEntry where
  family : String
  category : String
  features : List ℚ
deriving DecidableEq

/-- `findInDatabase` from `route.ts`: exact, hash-stripped, then
bidirectional-prefix lookup of a declared family in the catalog. -/
def findInDatabase (family : String) (database : List FontFeatureEntry) :
    Option FontFeatureEntry :=
  let lower := jsNormLC family
  let cleanedLower := jsNormLC (cleanFamilyName family)
  match database.find? (fun e => jsNormLC e.family = lower) with
  | some e => some e
  | none =>
    match (if cleanedLower ≠ lower then
            database.find? (fun e => jsNormLC e.family = cleanedLower)
           else none) with
    | some e => some e
    | none =>
      if 3 ≤ cleanedLower.length then
        database.find? (fun e =>
          strStartsWith (jsNormLC e.family) cleanedLower ||
          strStartsWith cleanedLower (jsNormLC e.family))
      else none

/-! ### Feature vector, weights, distance, similarity (`font-features.ts`) -/

def FEATURE_NAMES : List String :=
  ["weightClass", "widthClass", "xHeightRatio", "capHeightRatio",
   "ascenderRatio", "descenderRatio", "avgWidthRatio", "serifScore",
   "contrastRatio", "roundness", "isMonospace", "italicAngle",
   "panoseSerif", "panoseWeight", "complexity"]

def FEATURE_COUNT : ℕ := FEATURE_NAMES.length

def FEATURE_WEIGHTS : List ℚ :=
  [1.0, 0.8, 1.3, 0.7, 0.5, 0.5, 1.0, 1.8, 0.9, 0.7, 3.0, 0.3, 0.9, 0.4, 0.5]

/-- The weighted sum of squared coordinate differences accumulated by
`featureDistance` before the final `Math.sqrt`; `a[i] || 0` is `getD i 0`. -/
def featureDistanceSq (a b : List ℚ) : ℚ :=
  ∑ i ∈ Finset.range FEATURE_COUNT,
    FEATURE_WEIGHTS.getD i 0 * ((a.getD i 0 - b.getD i 0) * (a.getD i 0 - b.getD i 0))

/-- `featureDistance` from `font-features.ts`: weighted Euclidean distance. -/
noncomputable def featureDistance (a b : List ℚ) : ℝ :=
  Real.sqrt ((featureDistanceSq a b : ℚ) : ℝ)

/-- `distanceToSimilarity`: `Math.round(100 * Math.exp(-distance * 1.2))`. -/
noncomputable def distanceToSimilarity (distance : ℝ) : ℤ :=
  round ((100 : ℝ) * Real.exp (-distance * 1.2))

/-- The records returned by `findSimilar`: `{ ...entry, distance, similarity }`. -/
structure SimilarResult extends FontFeatureEntry where
  distance : ℝ
  similarity : ℤ

/-- Comparison used by `.sort((a, b) => a.distance - b.distance)`. -/
def distLE (a b : SimilarResult) : Prop :=
  a.distance ≤ b.distance

noncomputable instance : DecidableRel distLE :=
  fun _ _ => Classical.propDecidable _

instance : IsTotal SimilarResult distLE :=
  ⟨fun a b => le_total a.distance b.distance⟩

instance : IsTrans SimilarResult distLE :=
  ⟨fun _ _ _ hab hbc => le_trans hab hbc⟩

/-- The filter predicate of `findSimilar`: `!excludeNorm` (absent or empty
string) keeps everything, otherwise drop entries with that normalised family. -/
def keepEntry (excludeNorm : Option String) (e : FontFeatureEntry) : Bool :=
  match excludeNorm with
  | none => true
  | some ex => if ex = "" then true else jsNormLC e.family != ex

/-- `findSimilar` from `font-features.ts`: filter out the excluded family,
score every record, sort ascending by distance, take the first `topN`. -/
noncomputable def findSimilar (queryFeatures : List ℚ)
    (database : List FontFeatureEntry) (topN : ℕ)
    (excludeFamily : Option String) : List SimilarResult :=
  let excludeNorm := excludeFamily.map jsNormLC
  let results :=
    List.insertionSort distLE
      ((database.filter (keepEntry excludeNorm)).map (fun e =>
        let distance := featureDistance queryFeatures e.features
        ⟨e, distance, distanceToSimilarity distance⟩))
  results.take topN

/-! ### The opentype.js font structure, as far as the extractor reads it -/

structure OS2Table where
  usWeightClass : Option ℚ
  usWidthClass : Option ℚ
  sxHeight : Option ℚ
  sCapHeight : Option ℚ
  sTypoAscender : Option ℚ
  sTypoDescender : Option ℚ
  xAvgCharWidth : Option ℚ
  panose : Option (List ℚ)

structure PostTable where
  isFixedPitch : Option ℚ
  italicAngle : Option ℚ

inductive CmdType where
  | M | L | C | Q | Z
deriving DecidableEq

/-- One drawing command of a glyph path; `x`/`y` are absent on `Z`. -/
structure PathCmd where
  type : CmdType
  x : Option ℚ
  y : Option ℚ

structure BBox where
  y2 : ℚ

/-- A glyph: `index`, `advanceWidth`, `getPath(0, 0, size).commands` as a
function of the render size, and `getBoundingBox()`. -/
structure Glyph where
  index : ℕ
  advanceWidth : Option ℚ
  path : ℚ → List PathCmd
  bbox : BBox

/-- A decoded font; `charToGlyph` returning `none` models a thrown lookup. -/
structure Font where
  unitsPerEm : Option ℚ
  os2 : Option OS2Table
  post : Option PostTable
  ascender : Option ℚ
  descender : Option ℚ
  charToGlyph : Char → Option Glyph

/-! ### Glyph-level analysis (`analyzeGlyphs` and helpers) -/

def serifTestChars : String := "IlT"

def generalTestChars : String := "HoeaABCDnpqr0123"

def allTestChars : List Char := (serifTestChars ++ generalTestChars).toList

structure SampledGlyph where
  char : Char
  glyph : Glyph
  cmds : List PathCmd

/-- The glyphs the `analyzeGlyphs` loop actually processes: resolvable,
non-`.notdef`, with a nonempty command list at render size 72. -/
def sampleGlyphs (font : Font) : List SampledGlyph :=
  allTestChars.filterMap (fun c =>
    match font.charToGlyph c with
    | none => none
    | some g =>
      if g.index = 0 then none
      else
        let cmds := g.path 72
        if cmds.length = 0 then none else some ⟨c, g, cmds⟩)

def isCurveCmd (c : PathCmd) : Bool :=
  c.type = CmdType.C || c.type = CmdType.Q

def isLineCmd (c : PathCmd) : Bool :=
  c.type = CmdType.L

def totalCurves (font : Font) : ℕ :=
  ((sampleGlyphs font).map (fun sg => (sg.cmds.filter isCurveCmd).length)).sum

def totalLines (font : Font) : ℕ :=
  ((sampleGlyphs font).map (fun sg => (sg.cmds.filter isLineCmd).length)).sum

def totalCommands (font : Font) : ℕ :=
  ((sampleGlyphs font).map (fun sg => sg.cmds.length)).sum

def glyphCount (font : Font) : ℕ :=
  (sampleGlyphs font).length

/-- `widths`: advance widths of sampled glyphs with truthy `advanceWidth`. -/
def sampledWidths (font : Font) : List ℚ :=
  (sampleGlyphs font).filterMap (fun sg =>
    match sg.glyph.advanceWidth with
    | none => none
    | some w => if w = 0 then none else some w)

/-- Signed serif score contributed by one sampled glyph. -/
def serifContribution (c : Char) (cmdCount : ℕ) : ℤ :=
  (if c = 'I' then (if 12 < cmdCount then 3 else if cmdCount ≤ 6 then -3 else -1) else 0) +
  (if c = 'l' then (if 10 < cmdCount then 2 else if cmdCount ≤ 6 then -2 else 0) else 0) +
  (if c = 'T' then (if 16 < cmdCount then 1 else if cmdCount ≤ 8 then -1 else 0) else 0)

def serifRawScore (font : Font) : ℤ :=
  ((sampleGlyphs font).map (fun sg => serifContribution sg.char sg.cmds.length)).sum

/-- The vertical/horizontal extents accumulated by `estimateContrast` over
consecutive command pairs with defined coordinates. -/
def contrastExtents (cmds : List PathCmd) : ℚ × ℚ :=
  (cmds.zip cmds.tail).foldl
    (fun acc pc =>
      match pc.1.x, pc.1.y, pc.2.x, pc.2.y with
      | some px, some py, some cx, some cy =>
        let dx := |cx - px|
        let dy := |cy - py|
        (if dx * 2 < dy then acc.1 + dy else acc.1,
         if dy * 2 < dx then acc.2 + dx else acc.2)
      | _, _, _, _ => acc)
    (0, 0)

/-- `estimateContrast` from `font-features.ts`. -/
def estimateContrast (font : Font) (upm : ℚ) : ℚ :=
  match font.charToGlyph 'o' with
  | none => 0.3
  | some g =>
    if g.index = 0 then 0.3
    else
      let e := contrastExtents (g.path upm)
      if e.1 + e.2 = 0 then 0.3
      else clamp (|e.1 - e.2| / (e.1 + e.2)) 0 1

structure GlyphAnalysis where
  serifScore : ℚ
  contrastRatio : ℚ
  roundness : ℚ
  complexity : ℚ
  isMonospace : Bool

/-- `analyzeGlyphs` from `font-features.ts`. -/
def analyzeGlyphs (font : Font) (upm : ℚ) : GlyphAnalysis :=
  let drawCommands := totalCurves font + totalLines font
  { serifScore := clamp (((serifRawScore font : ℚ) + 8) / 14) 0 1
    contrastRatio := estimateContrast font upm
    roundness :=
      if 0 < drawCommands then (totalCurves font : ℚ) / (drawCommands : ℚ) else 0.5
    complexity :=
      clamp ((if 0 < glyphCount font then
                (totalCommands font : ℚ) / (glyphCount font : ℚ)
              else 20) / 80) 0 1
    isMonospace :=
      3 ≤ (sampledWidths font).length && (sampledWidths font).dedup.length ≤ 2 }

/-! ### Metric fallbacks and `extractFeatures` -/

def estimateXHeight (font : Font) (upm : ℚ) : ℚ :=
  match font.charToGlyph 'x' with
  | some g =>
    if g.index ≠ 0 ∧ 0 < g.bbox.y2 then clamp (g.bbox.y2 / upm) 0 1 else 0.48
  | none => 0.48

def estimateCapHeight (font : Font) (upm : ℚ) : ℚ :=
  match font.charToGlyph 'H' with
  | some g =>
    if g.index ≠ 0 ∧ 0 < g.bbox.y2 then clamp (g.bbox.y2 / upm) 0 1 else 0.70
  | none => 0.70

def avgWidthSamples (font : Font) : List ℚ :=
  "abcdefghijklmnopqrstuvwxyz".toList.filterMap (fun c =>
    match font.charToGlyph c with
    | none => none
    | some g =>
      if g.index = 0 then none
      else
        match g.advanceWidth with
        | none => none
        | some w => if w = 0 then none else some w)

def estimateAvgWidth (font : Font) (upm : ℚ) : ℚ :=
  let ws := avgWidthSamples font
  if 0 < ws.length then ws.sum / (ws.length : ℚ) else upm * 0.5

/-! The local constants of `extractFeatures` as named components. -/

def upmOf (font : Font) : ℚ := jsOr font.unitsPerEm 1000

def weightClassOf (font : Font) : ℚ :=
  clamp (jsOr (font.os2.bind (·.usWeightClass)) 400 / 900) 0 1

def widthClassOf (font : Font) : ℚ :=
  clamp ((jsOr (font.os2.bind (·.usWidthClass)) 5 - 1) / 8) 0 1

def xHeightRatioOf (font : Font) : ℚ :=
  let sxHeight := jsOr (font.os2.bind (·.sxHeight)) 0
  if 0 < sxHeight then clamp (sxHeight / upmOf font) 0 1
  else estimateXHeight font (upmOf font)

def capHeightRatioOf (font : Font) : ℚ :=
  let sCapHeight := jsOr (font.os2.bind (·.sCapHeight)) 0
  if 0 < sCapHeight then clamp (sCapHeight / upmOf font) 0 1
  else estimateCapHeight font (upmOf font)

def ascenderRatioOf (font : Font) : ℚ :=
  clamp (jsOr (font.os2.bind (·.sTypoAscender))
           (jsOr font.ascender (upmOf font * 0.8)) / upmOf font) 0 1.5

def descenderRatioOf (font : Font) : ℚ :=
  clamp (|jsOr (font.os2.bind (·.sTypoDescender))
            (jsOr font.descender (upmOf font * (-0.2)))| / upmOf font) 0 0.5

def avgWidthRatioOf (font : Font) : ℚ :=
  clamp (jsOr (font.os2.bind (·.xAvgCharWidth))
           (estimateAvgWidth font (upmOf font)) / upmOf font) 0 2

def panoseOf (font : Font) : List ℚ :=
  match font.os2.bind (·.panose) with
  | some l => l
  | none => [0, 0, 0, 0, 0, 0, 0, 0, 0, 0]

/-- `isFixedPitch || panoseMonospace || glyphAnalysis.isMonospace ? 1 : 0`. -/
def isMonospaceFlagOf (font : Font) : ℚ :=
  if (font.post.bind (·.isFixedPitch)) = some 1 ∨ (panoseOf font).getD 3 0 = 9 ∨
      (analyzeGlyphs font (upmOf font)).isMonospace then 1 else 0

def italicAngleOf (font : Font) : ℚ :=
  clamp (|jsOr (font.post.bind (·.italicAngle)) 0| / 45) 0 1

def panoseSerifOf (font : Font) : ℚ :=
  clamp (jsOr (panoseOf font)[1]? 0 / 15) 0 1

def panoseWeightOf (font : Font) : ℚ :=
  clamp (jsOr (panoseOf font)[2]? 0 / 15) 0 1

/-- `extractFeatures` from `font-features.ts`: the 15-entry feature vector. -/
def extractFeatures (font : Font) : List ℚ :=
  [weightClassOf font, widthClassOf font, xHeightRatioOf font,
   capHeightRatioOf font, ascenderRatioOf font, descenderRatioOf font,
   avgWidthRatioOf font, (analyzeGlyphs font (upmOf font)).serifScore,
   (analyzeGlyphs font (upmOf font)).contrastRatio,
   (analyzeGlyphs font (upmOf font)).roundness, isMonospaceFlagOf font,
   italicAngleOf font, panoseSerifOf font, panoseWeightOf font,
   (analyzeGlyphs font (upmOf font)).complexity]

/-! ### The POST handler of `src/app/api/match/route.ts`
The network/IO boundary is abstracted: `queryFeatures` is the result of
fetching and decoding the query font bytes (`none` when there is no `url`,
the fetch failed, or the bytes did not parse). -/

/-- `https://fonts.google.com/specimen/` + family with spaces as `+`. -/
def specimenUrl (family : String) : String :=
  "https://fonts.google.com/specimen/" ++
    String.mk (family.toList.map (fun c => if c = ' ' then '+' else c))

def exactFreeReason : String := "This exact font is available free on Google Fonts!"

/-- One element of the `alternatives` array of a response. -/
structure Alt where
  family : String
  category : Option String
  similarity : ℤ
  reason : String
  downloadUrl : String

/-- An alternative produced from an entry of the curated override table. -/
def overrideAlt (a : NameOverrideAlt) : Alt :=
  ⟨a.family, none, 95, a.reason, specimenUrl a.family⟩

/-- An alternative produced from a `findSimilar` result. -/
def featureAlt (m : SimilarResult) : Alt :=
  ⟨m.family, some m.category, m.similarity,
   toString m.similarity ++ "% visual match", specimenUrl m.family⟩

/-- An alternative produced by the category fallback. -/
def fallbackAlt (e : FontFeatureEntry) : Alt :=
  ⟨e.family, some e.category, 50, "Category match: " ++ e.category,
   specimenUrl e.family⟩

/-- The response of the handler: the 400 on missing family, or a JSON
payload with its `method`, optional `error`, and `alternatives`. -/
inductive MatchResponse where
  | badRequest
  | success (method : String) (error : Option String) (alternatives : List Alt)

/-- Substring test for one alternation of an `/i`-regex over an
already-lower-cased string. -/
def containsAnyOf (s : String) (pats : List String) : Bool :=
  pats.any (fun p => decide (p.toList <:+: s.toList))

/-- The category inferred by the last-resort keyword patterns. -/
def categoryFilterFor (lower : String) : Option String :=
  if containsAnyOf lower ["mono", "code", "courier", "consolas", "menlo", "terminal"] then
    some "monospace"
  else if containsAnyOf lower ["serif"] && !containsAnyOf lower ["sans"] then
    some "serif"
  else if containsAnyOf lower ["sans"] then
    some "sans-serif"
  else if containsAnyOf lower ["script", "cursive", "handwrit", "brush", "callig"] then
    some "handwriting"
  else none

/-- Step 4 of the handler: category-keyword fallback at similarity 50. -/
def categoryFallbackResponse (cleanedFamily : String)
    (db : List FontFeatureEntry) : MatchResponse :=
  let lower := jsToLower cleanedFamily
  let filtered :=
    match categoryFilterFor lower with
    | some cat => db.filter (fun e : FontFeatureEntry => e.category == cat)
    | none => db
  .success "category-fallback" none ((filtered.take 5).map fallbackAlt)

/-- `lookupName` in the handler: the catalog family on an exact/fuzzy hit,
otherwise the artifact-stripped declared family. -/
def lookupName (family : String) (db : List FontFeatureEntry) : String :=
  match findInDatabase family db with
  | some e => e.family
  | none => cleanFamilyName family

/-- The alternatives of the feature-similarity strategy: promote the top
neighbour to a 100-similarity "already free" entry when its normalised
family equals the cleaned query family (taking neighbours 1–4 as secondary
suggestions), otherwise map the first five neighbours. -/
def featureAlternatives (cleanedFamily : String) : List SimilarResult → List Alt
  | t :: rest =>
    if jsNormLC t.family = jsNormLC cleanedFamily then
      ⟨t.family, some t.category, 100, exactFreeReason, specimenUrl t.family⟩
        :: (rest.take 4).map featureAlt
    else ((t :: rest).take 5).map featureAlt
  | [] => []

/-- Steps 2–4 of the handler: feature-vector similarity when bytes decoded
and the catalog is nonempty, else the `no-database` or category fallback. -/
noncomputable def handleFeature :
    Option (List ℚ) → List FontFeatureEntry → String → MatchResponse
  | some q, d :: ds, cleanedFamily =>
    .success "feature-similarity" none
      (featureAlternatives cleanedFamily (findSimilar q (d :: ds) 6 (some cleanedFamily)))
  | _, db, cleanedFamily =>
    if db.isEmpty then
      .success "no-database"
        (some "Font feature database not built yet. Run: npm run build:features") []
    else categoryFallbackResponse cleanedFamily db

/-- The exact/fuzzy catalog hit: a 100-similarity entry, supplemented by up
to 4 feature-similarity neighbours when the bytes decoded. -/
noncomputable def handleExact (qf : Option (List ℚ)) (db : List FontFeatureEntry)
    (cleanedFamily : String) : Option FontFeatureEntry → MatchResponse
  | some e =>
    .success "exact-match" none
      (⟨e.family, some e.category, 100, exactFreeReason, specimenUrl e.family⟩ ::
        (match qf with
         | some q => (findSimilar q db 4 (some e.family)).map featureAlt
         | none => []))
  | none => handleFeature qf db cleanedFamily

/-- The curated-override strategy: 95-similarity alternatives, with the
exact catalog hit prepended at 100 when present. -/
noncomputable def handleOverride (qf : Option (List ℚ)) (db : List FontFeatureEntry)
    (cleanedFamily : String) (exactMatch : Option FontFeatureEntry) :
    Option (List NameOverrideAlt) → MatchResponse
  | some ov =>
    .success "name-override" none
      (match exactMatch with
       | some e =>
         ⟨e.family, none, 100, exactFreeReason, specimenUrl e.family⟩ :: ov.map overrideAlt
       | none => ov.map overrideAlt)
  | none => handleExact qf db cleanedFamily exactMatch

/-- The strategy cascade of the POST handler. -/
noncomputable def processMatch (family : String) (queryFeatures : Option (List ℚ))
    (db : List FontFeatureEntry) : MatchResponse :=
  if family = "" then .badRequest
  else
    handleOverride queryFeatures db (cleanFamilyName family) (findInDatabase family db)
      (findNameOverride (lookupName family db))

/-! ### Documented ranges and concrete instances used by the theorems -/

/-- Per-dimension upper bounds documented in `FEATURE_NAMES`: everything in
`[0,1]` except `ascenderRatio ≤ 1.5`, `descenderRatio ≤ 0.5`,
`avgWidthRatio ≤ 2`. -/
def FEATURE_MAX : List ℚ :=
  [1, 1, 1, 1, 1.5, 0.5, 2, 1, 1, 1, 1, 1, 1, 1, 1]

/-- A vector of the documented shape: 15 entries, each in its range. -/
def inDocumentedRanges (v : List ℚ) : Prop :=
  v.length = FEATURE_COUNT ∧
  ∀ i < FEATURE_COUNT, 0 ≤ v.getD i 0 ∧ v.getD i 0 ≤ FEATURE_MAX.getD i 0

/-- A glyph every test character resolves to: two path commands, fixed
advance width 600. -/
def demoGlyph : Glyph :=
  ⟨1, some 600, fun _ => [⟨CmdType.M, some 0, some 0⟩, ⟨CmdType.L, some 1, some 1⟩], ⟨700⟩⟩

/-- A font whose sampled glyphs all share one advance width. -/
def demoMonoFont : Font :=
  ⟨some 1000, none, none, none, none, fun _ => some demoGlyph⟩

def arialEntry : FontFeatureEntry := ⟨"Arial", "sans-serif", []⟩

def interEntry : FontFeatureEntry := ⟨"Inter", "sans-serif", []⟩

def futuraEntry : FontFeatureEntry := ⟨"Futura", "sans-serif", []⟩

/-- The curated alternatives stored under the key `futura`. -/
def futuraOv : List NameOverrideAlt := (NAME_OVERRIDES.getD 5 ("", [])).2

/-- A catalog record whose family is whitespace only (normalises to `""`). -/
def blankEntry : FontFeatureEntry := ⟨" ", "display", []⟩

/-- The scored record `findSimilar` produces for `arialEntry` on an empty
query vector. -/
noncomputable def arialScored : SimilarResult :=
  ⟨arialEntry, featureDistance [] arialEntry.features,
   distanceToSimilarity (featureDistance [] arialEntry.features)⟩

/-! ## Helper lemmas -/

theorem le_clamp (v mn mx : ℚ) : mn ≤ clamp v mn mx :=
  le_max_left _ _

theorem clamp_le (v : ℚ) {mn mx : ℚ} (h : mn ≤ mx) : clamp v mn mx ≤ mx :=
  max_le h (min_le_left _ _)

theorem featureWeights_getD_nonneg (i : ℕ) : 0 ≤ FEATURE_WEIGHTS.getD i 0 := by
  by_cases h : i < FEATURE_WEIGHTS.length
  · have h15 : i < 15 := by simpa [FEATURE_WEIGHTS] using h
    interval_cases i <;> norm_num [FEATURE_WEIGHTS, List.getD]
  · rw [List.getD_eq_default _ _ (le_of_not_lt h)]

theorem featureDistanceSq_nonneg (a b : List ℚ) : 0 ≤ featureDistanceSq a b :=
  Finset.sum_nonneg fun i _ =>
    mul_nonneg (featureWeights_getD_nonneg i) (mul_self_nonneg _)

theorem exp_six_gt_two_hundred : (200 : ℝ) < Real.exp 6 := by
  have h1 : (2.7 : ℝ) ^ (6 : ℕ) ≤ Real.exp 1 ^ (6 : ℕ) :=
    pow_le_pow_left₀ (by norm_num)
      (le_trans (by norm_num) Real.exp_one_gt_d9.le) 6
  have h2 : Real.exp 1 ^ (6 : ℕ) = Real.exp 6 := by
    rw [← Real.exp_nat_mul]; norm_num
  rw [h2] at h1
  nlinarith [h1]

theorem distanceToSimilarity_eq_zero {d : ℝ} (h : 5 ≤ d) :
    distanceToSimilarity d = 0 := by
  unfold distanceToSimilarity
  rw [round_eq_zero_iff]
  have hpos := Real.exp_pos (-d * 1.2)
  have hle : Real.exp (-d * 1.2) ≤ Real.exp (-6) :=
    Real.exp_le_exp.mpr (by nlinarith)
  have hsmall : Real.exp (-6) < 1 / 200 := by
    rw [Real.exp_neg]
    have := inv_strictAnti₀ (show (0:ℝ) < 200 by norm_num) exp_six_gt_two_hundred
    simpa [one_div] using this
  constructor
  · nlinarith
  · show (100 : ℝ) * Real.exp (-d * 1.2) < 1 / 2
    nlinarith

/-! ## C2: similarity at zero distance, monotonicity -/

/-- C2 counterexample: the claim "`distanceToSimilarity 0 = 100` and
`distanceToSimilarity` is strictly decreasing for `0 ≤ d1 < d2`" is false:
rounding collapses large distances, e.g. both 5 and 6 map to similarity 0. -/
theorem c2_counterexample :
    ¬ (distanceToSimilarity 0 = 100 ∧
       ∀ d1 d2 : ℝ, 0 ≤ d1 → d1 < d2 →
         distanceToSimilarity d2 < distanceToSimilarity d1) := by
  rintro ⟨-, h⟩
  have h5 : distanceToSimilarity 5 = 0 := distanceToSimilarity_eq_zero le_rfl
  have h6 : distanceToSimilarity 6 = 0 := distanceToSimilarity_eq_zero (by norm_num)
  have hlt := h 5 6 (by norm_num) (by norm_num)
  rw [h5, h6] at hlt
  exact lt_irrefl 0 hlt

/-- C2 amended: `distanceToSimilarity 0 = 100`, and the similarity is
weakly decreasing (non-increasing) in the distance; strictness fails only
because of the final `Math.round`. -/
theorem c2_theorem :
    distanceToSimilarity 0 = 100 ∧
    ∀ d1 d2 : ℝ, d1 ≤ d2 → distanceToSimilarity d2 ≤ distanceToSimilarity d1 := by
  constructor
  · unfold distanceToSimilarity
    rw [show (-(0:ℝ) * 1.2) = 0 by ring, Real.exp_zero, mul_one]
    simp
  · intro d1 d2 h
    unfold distanceToSimilarity
    rw [round_eq, round_eq]
    apply Int.floor_le_floor
    have hle : Real.exp (-d2 * 1.2) ≤ Real.exp (-d1 * 1.2) :=
      Real.exp_le_exp.mpr (by nlinarith)
    nlinarith

theorem c2_theorem_witness :
    distanceToSimilarity 0 = 100 ∧ distanceToSimilarity 2 ≤ distanceToSimilarity 1 :=
  ⟨c2_theorem.1, c2_theorem.2 1 2 (by norm_num)⟩

/-! ## C3: monospace-mismatch dominance -/

theorem featureDistanceSq_single {a b : List ℚ} {j : ℕ} (hj : j < FEATURE_COUNT)
    (h : ∀ i, i ≠ j → a.getD i 0 = b.getD i 0) :
    featureDistanceSq a b =
      FEATURE_WEIGHTS.getD j 0 *
        ((a.getD j 0 - b.getD j 0) * (a.getD j 0 - b.getD j 0)) := by
  unfold featureDistanceSq
  apply Finset.sum_eq_single_of_mem j (Finset.mem_range.mpr hj)
  intro i _ hne
  rw [h i hne]
  ring

/-- C3 counterexample: with all entries inside their documented ranges, a
mismatch of 2 on the `avgWidthRatio` dimension (weight 1.0, range `[0,2]`)
contributes 4.0 to the squared distance and strictly exceeds the 3.0 of a
monospace mismatch, so the monospace mismatch does not dominate every other
single-dimension mismatch. -/
theorem c3_counterexample :
    inDocumentedRanges (List.replicate 15 (0 : ℚ)) ∧
    inDocumentedRanges [0, 0, 0, 0, 0, 0, 0, 0, 0, 0, 1, 0, 0, 0, 0] ∧
    inDocumentedRanges [0, 0, 0, 0, 0, 0, 2, 0, 0, 0, 0, 0, 0, 0, 0] ∧
    featureDistance (List.replicate 15 0) [0, 0, 0, 0, 0, 0, 0, 0, 0, 0, 1, 0, 0, 0, 0] <
      featureDistance (List.replicate 15 0) [0, 0, 0, 0, 0, 0, 2, 0, 0, 0, 0, 0, 0, 0, 0] := by
  have hm : featureDistanceSq (List.replicate 15 0)
      [0, 0, 0, 0, 0, 0, 0, 0, 0, 0, 1, 0, 0, 0, 0] = 3 := by
    norm_num [featureDistanceSq, FEATURE_COUNT, FEATURE_NAMES, FEATURE_WEIGHTS,
      Finset.sum_range_succ, List.getD]
  have ha : featureDistanceSq (List.replicate 15 0)
      [0, 0, 0, 0, 0, 0, 2, 0, 0, 0, 0, 0, 0, 0, 0] = 4 := by
    norm_num [featureDistanceSq, FEATURE_COUNT, FEATURE_NAMES, FEATURE_WEIGHTS,
      Finset.sum_range_succ, List.getD]
  refine ⟨?_, ?_, ?_, ?_⟩
  · exact ⟨rfl, by intro i hi; have : i < 15 := hi; interval_cases i <;>
      norm_num [FEATURE_MAX, List.getD]⟩
  · exact ⟨rfl, by intro i hi; have : i < 15 := hi; interval_cases i <;>
      norm_num [FEATURE_MAX, List.getD]⟩
  · exact ⟨rfl, by intro i hi; have : i < 15 := hi; interval_cases i <;>
      norm_num [FEATURE_MAX, List.getD]⟩
  · unfold featureDistance
    rw [hm, ha]
    apply Real.sqrt_lt_sqrt (by norm_num)
    norm_num

/-- C3 amended: a monospace mismatch of difference 1 yields a strictly
larger `featureDistance` than a mismatch confined to any single other
dimension *whose difference is at most 1* (the documented range of
`avgWidthRatio` allows a difference of 2, which breaks the original claim). -/
theorem c3_theorem (u v x y : List ℚ) (j : ℕ) (hj : j < FEATURE_COUNT)
    (hj10 : j ≠ 10)
    (huv : ∀ i, i ≠ 10 → u.getD i 0 = v.getD i 0)
    (huv10 : |u.getD 10 0 - v.getD 10 0| = 1)
    (hxy : ∀ i, i ≠ j → x.getD i 0 = y.getD i 0)
    (hxyj : |x.getD j 0 - y.getD j 0| ≤ 1) :
    featureDistance x y < featureDistance u v := by
  have hC : FEATURE_COUNT = 15 := rfl
  have huvsq : featureDistanceSq u v = 3 := by
    rw [featureDistanceSq_single (by rw [hC]; norm_num) huv]
    have hd : (u.getD 10 0 - v.getD 10 0) * (u.getD 10 0 - v.getD 10 0) = 1 := by
      rw [← abs_mul_abs_self, huv10]; norm_num
    rw [hd]
    norm_num [FEATURE_WEIGHTS, List.getD]
  have hxysq : featureDistanceSq x y ≤ 1.8 := by
    rw [featureDistanceSq_single hj hxy]
    have hd : (x.getD j 0 - y.getD j 0) * (x.getD j 0 - y.getD j 0) ≤ 1 := by
      rw [← abs_mul_abs_self]
      exact mul_le_one₀ hxyj (abs_nonneg _) hxyj
    have hw : FEATURE_WEIGHTS.getD j 0 ≤ 1.8 := by
      have h15 : j < 15 := by rw [← hC]; exact hj
      interval_cases j <;> first
        | exact absurd rfl hj10
        | norm_num [FEATURE_WEIGHTS, List.getD]
    have hw0 := featureWeights_getD_nonneg j
    nlinarith [mul_self_nonneg (x.getD j 0 - y.getD j 0)]
  unfold featureDistance
  apply Real.sqrt_lt_sqrt
  · exact_mod_cast featureDistanceSq_nonneg x y
  · have : featureDistanceSq x y < featureDistanceSq u v := by
      rw [huvsq]; linarith
    exact_mod_cast this

theorem c3_theorem_witness :
    featureDistance [0, 0, 1, 0, 0, 0, 0, 0, 0, 0, 0, 0, 0, 0, 0] (List.replicate 15 0) <
      featureDistance [0, 0, 0, 0, 0, 0, 0, 0, 0, 0, 1, 0, 0, 0, 0] (List.replicate 15 0) := by
  have hten : ∀ i, i ≠ 10 →
      ([0, 0, 0, 0, 0, 0, 0, 0, 0, 0, 1, 0, 0, 0, 0] : List ℚ).getD i 0 =
        (List.replicate 15 (0 : ℚ)).getD i 0 := by
    intro i hi
    by_cases h : i < 15
    · interval_cases i <;> simp_all [List.getD]
    · rw [List.getD_eq_default _ _ (by norm_num; omega),
        List.getD_eq_default _ _ (by norm_num; omega)]
  have htwo : ∀ i, i ≠ 2 →
      ([0, 0, 1, 0, 0, 0, 0, 0, 0, 0, 0, 0, 0, 0, 0] : List ℚ).getD i 0 =
        (List.replicate 15 (0 : ℚ)).getD i 0 := by
    intro i hi
    by_cases h : i < 15
    · interval_cases i <;> simp_all [List.getD]
    · rw [List.getD_eq_default _ _ (by norm_num; omega),
        List.getD_eq_default _ _ (by norm_num; omega)]
  exact c3_theorem _ _ _ _ 2 (by norm_num [FEATURE_COUNT, FEATURE_NAMES]) (by norm_num)
    hten (by norm_num [List.getD]) htwo (by norm_num [List.getD])

/-! ## Membership in `findSimilar` results -/

theorem mem_findSimilar {r : SimilarResult} {qf : List ℚ}
    {db : List FontFeatureEntry} {n : ℕ} {ex : Option String}
    (h : r ∈ findSimilar qf db n ex) :
    ∃ e ∈ db, keepEntry (ex.map jsNormLC) e = true ∧ r.family = e.family := by
  unfold findSimilar at h
  have h1 := List.mem_of_mem_take h
  rw [List.mem_insertionSort, List.mem_map] at h1
  obtain ⟨e, he, rfl⟩ := h1
  rw [List.mem_filter] at he
  exact ⟨e, he.1, he.2, rfl⟩

/-! ## C5: the excluded family is never returned -/

/-- C5: when the exclusion string does not normalise to the empty string,
no record of the `findSimilar` result has the excluded normalised family. -/
theorem c5_theorem (qf : List ℚ) (db : List FontFeatureEntry) (n : ℕ)
    (s : String) (hs : jsNormLC s ≠ "") :
    ∀ r ∈ findSimilar qf db n (some s), jsNormLC r.family ≠ jsNormLC s := by
  intro r hr
  obtain ⟨e, -, hk, hf⟩ := mem_findSimilar hr
  rw [hf]
  unfold keepEntry at hk
  simp only [Option.map_some'] at hk
  rw [if_neg hs] at hk
  simpa using hk

theorem c5_theorem_witness : jsNormLC arialScored.family ≠ jsNormLC "Roboto" :=
  c5_theorem [] [arialEntry] 5 "Roboto" (by decide) arialScored
    (List.mem_singleton.mpr rfl)

/-! ## C6: results sorted by non-decreasing distance, at most `topN` -/

/-- C6: `findSimilar` output is sorted by non-decreasing `distance`
(`distLE r r'` is `r.distance ≤ r'.distance`) and has length at most
`topN`. -/
theorem c6_theorem (qf : List ℚ) (db : List FontFeatureEntry) (n : ℕ)
    (ex : Option String) :
    List.Sorted distLE (findSimilar qf db n ex) ∧
    (findSimilar qf db n ex).length ≤ n := by
  constructor
  · unfold findSimilar
    exact (List.sorted_insertionSort distLE _).sublist (List.take_sublist _ _)
  · unfold findSimilar
    exact List.length_take_le _ _

/-! ## C10: an empty or missing exclusion filters nothing -/

/-- C10: with `excludeFamily` omitted, or normalising to the empty string,
`findSimilar` applies no exclusion (the filter keeps every record), and a
record whose family equals the query's own (whitespace) family is returned
as the top match. -/
theorem c10_theorem :
    (∀ db : List FontFeatureEntry, db.filter (keepEntry none) = db) ∧
    (∀ (qf : List ℚ) (db : List FontFeatureEntry) (n : ℕ) (s : String),
      jsNormLC s = "" → findSimilar qf db n (some s) = findSimilar qf db n none) ∧
    (findSimilar [] [blankEntry] 5 (some " ")).map (·.family) = [" "] := by
  refine ⟨?_, ?_, ?_⟩
  · intro db
    exact List.filter_eq_self.mpr fun a _ => rfl
  · intro qf db n s hs
    unfold findSimilar
    simp only [Option.map_some', Option.map_none', hs]
    rw [show keepEntry (some "") = keepEntry none from funext fun e => rfl]
  · rfl

theorem c10_theorem_witness :
    findSimilar [] [blankEntry] 3 (some " ") = findSimilar [] [blankEntry] 3 none :=
  c10_theorem.2.1 [] [blankEntry] 3 " " (by decide)

/-! ## C4: the extracted vector is 15 in-range entries -/

theorem estimateXHeight_mem (font : Font) (upm : ℚ) :
    0 ≤ estimateXHeight font upm ∧ estimateXHeight font upm ≤ 1 := by
  unfold estimateXHeight
  split
  · split
    · exact ⟨le_clamp _ _ _, clamp_le _ (by norm_num)⟩
    · norm_num
  · norm_num

theorem estimateCapHeight_mem (font : Font) (upm : ℚ) :
    0 ≤ estimateCapHeight font upm ∧ estimateCapHeight font upm ≤ 1 := by
  unfold estimateCapHeight
  split
  · split
    · exact ⟨le_clamp _ _ _, clamp_le _ (by norm_num)⟩
    · norm_num
  · norm_num

theorem estimateContrast_mem (font : Font) (upm : ℚ) :
    0 ≤ estimateContrast font upm ∧ estimateContrast font upm ≤ 1 := by
  unfold estimateContrast
  split
  · norm_num
  · split
    · norm_num
    · dsimp only
      split
      · norm_num
      · exact ⟨le_clamp _ _ _, clamp_le _ (by norm_num)⟩

theorem roundness_mem (font : Font) (upm : ℚ) :
    0 ≤ (analyzeGlyphs font upm).roundness ∧ (analyzeGlyphs font upm).roundness ≤ 1 := by
  unfold analyzeGlyphs
  simp only
  split
  · rename_i hpos
    constructor
    · positivity
    · rw [div_le_one (by exact_mod_cast hpos)]
      exact_mod_cast Nat.le_add_right _ _
  · norm_num

theorem serifScore_mem (font : Font) (upm : ℚ) :
    0 ≤ (analyzeGlyphs font upm).serifScore ∧ (analyzeGlyphs font upm).serifScore ≤ 1 := by
  unfold analyzeGlyphs
  exact ⟨le_clamp _ _ _, clamp_le _ (by norm_num)⟩

theorem complexity_mem (font : Font) (upm : ℚ) :
    0 ≤ (analyzeGlyphs font upm).complexity ∧ (analyzeGlyphs font upm).complexity ≤ 1 := by
  unfold analyzeGlyphs
  exact ⟨le_clamp _ _ _, clamp_le _ (by norm_num)⟩

theorem contrastRatio_mem (font : Font) (upm : ℚ) :
    0 ≤ (analyzeGlyphs font upm).contrastRatio ∧ (analyzeGlyphs font upm).contrastRatio ≤ 1 := by
  unfold analyzeGlyphs
  exact estimateContrast_mem font upm

/-- C4: for every decoded font the extracted vector has exactly 15 entries
(rationals, hence finite), each within its documented range: `[0,1]`
everywhere except `ascenderRatio ∈ [0,1.5]`, `descenderRatio ∈ [0,0.5]`,
`avgWidthRatio ∈ [0,2]`. -/
theorem c4_theorem (font : Font) :
    (extractFeatures font).length = 15 ∧ inDocumentedRanges (extractFeatures font) := by
  refine ⟨rfl, rfl, ?_⟩
  intro i hi
  have h15 : i < 15 := hi
  interval_cases i <;>
    simp only [extractFeatures, FEATURE_MAX, List.getD_cons_zero, List.getD_cons_succ]
  · exact ⟨le_clamp _ _ _, clamp_le _ (by norm_num)⟩
  · exact ⟨le_clamp _ _ _, clamp_le _ (by norm_num)⟩
  · unfold xHeightRatioOf
    dsimp only
    split
    · exact ⟨le_clamp _ _ _, clamp_le _ (by norm_num)⟩
    · exact estimateXHeight_mem font (upmOf font)
  · unfold capHeightRatioOf
    dsimp only
    split
    · exact ⟨le_clamp _ _ _, clamp_le _ (by norm_num)⟩
    · exact estimateCapHeight_mem font (upmOf font)
  · exact ⟨le_clamp _ _ _, clamp_le _ (by norm_num)⟩
  · exact ⟨le_clamp _ _ _, clamp_le _ (by norm_num)⟩
  · exact ⟨le_clamp _ _ _, clamp_le _ (by norm_num)⟩
  · exact serifScore_mem font (upmOf font)
  · exact contrastRatio_mem font (upmOf font)
  · exact roundness_mem font (upmOf font)
  · unfold isMonospaceFlagOf
    split <;> norm_num
  · exact ⟨le_clamp _ _ _, clamp_le _ (by norm_num)⟩
  · exact ⟨le_clamp _ _ _, clamp_le _ (by norm_num)⟩
  · exact ⟨le_clamp _ _ _, clamp_le _ (by norm_num)⟩
  · exact complexity_mem font (upmOf font)

/-! ## C7: width-uniformity monospace signal -/

/-- C7: if at least 3 advance widths were collected over the sampled glyphs
and at most 2 distinct values occur among them, the glyph analysis sets the
monospace signal and the extracted vector's `isMonospace` dimension is 1. -/
theorem c7_theorem (font : Font)
    (h3 : 3 ≤ (sampledWidths font).length)
    (h2 : (sampledWidths font).dedup.length ≤ 2) :
    (analyzeGlyphs font (upmOf font)).isMonospace = true ∧
    (extractFeatures font).getD 10 0 = 1 := by
  have hmono : (analyzeGlyphs font (upmOf font)).isMonospace = true := by
    unfold analyzeGlyphs
    simp [h3, h2]
  refine ⟨hmono, ?_⟩
  simp only [extractFeatures, List.getD_cons_zero, List.getD_cons_succ]
  unfold isMonospaceFlagOf
  rw [if_pos (Or.inr (Or.inr hmono))]

theorem c7_theorem_witness :
    (analyzeGlyphs demoMonoFont (upmOf demoMonoFont)).isMonospace = true ∧
    (extractFeatures demoMonoFont).getD 10 0 = 1 :=
  c7_theorem demoMonoFont (by decide) (by decide)

/-! ## C8: empty catalog yields an explained `no-database` response -/

/-- C8: with an empty (failed-to-load) catalog and no curated override for
the declared family, the handler returns method `no-database` with an
explanatory error and an empty alternatives list; the vector strategies
are skipped. -/
theorem c8_theorem (family : String) (qf : Option (List ℚ))
    (hfam : family ≠ "")
    (hov : findNameOverride (cleanFamilyName family) = none) :
    processMatch family qf [] =
      .success "no-database"
        (some "Font feature database not built yet. Run: npm run build:features") [] := by
  have hdb : findInDatabase family ([] : List FontFeatureEntry) = none := by
    simp [findInDatabase, List.find?_nil, ite_self]
  have hlook : lookupName family ([] : List FontFeatureEntry) = cleanFamilyName family := by
    unfold lookupName
    rw [hdb]
  unfold processMatch
  rw [if_neg hfam, hlook, hov, hdb]
  cases qf with
  | none => rfl
  | some q => rfl

theorem c8_theorem_witness :
    processMatch "Zapfino" none [] =
      .success "no-database"
        (some "Font feature database not built yet. Run: npm run build:features") [] :=
  c8_theorem "Zapfino" none (by decide) (by decide)

/-! ## C9: name-override similarities are 95, with a prepended 100 -/

theorem overrides_entry_length : ∀ p ∈ NAME_OVERRIDES, p.2.length = 5 := by decide

theorem lookupOverride_length {k : String} {v : List NameOverrideAlt}
    (h : lookupOverride k = some v) : v.length = 5 := by
  unfold lookupOverride at h
  cases hf : NAME_OVERRIDES.find? (fun p => p.1 = k) with
  | none => rw [hf] at h; simp at h
  | some p =>
    rw [hf] at h
    simp only [Option.map_some', Option.some.injEq] at h
    rw [← h]
    exact overrides_entry_length p (List.mem_of_find?_eq_some hf)

theorem findNameOverride_length {fam : String} {v : List NameOverrideAlt}
    (h : findNameOverride fam = some v) : v.length = 5 := by
  unfold findNameOverride at h
  dsimp only at h
  split at h
  · rename_i heq
    cases h
    exact lookupOverride_length heq
  · split at h
    · rename_i heq
      cases h
      split at heq
      · exact lookupOverride_length heq
      · exact Option.noConfusion heq
    · split at h
      · rename_i p heq
        cases h
        exact overrides_entry_length p (List.mem_of_find?_eq_some heq)
      · split at h
        · rw [Option.map_eq_some'] at h
          obtain ⟨p, hp, rfl⟩ := h
          exact overrides_entry_length p (List.mem_of_find?_eq_some hp)
        · exact Option.noConfusion h

/-- C9: every curated name-override alternative carries similarity exactly
95, and exactly when the declared family is also found in the catalog, a
single 100-similarity entry is prepended ahead of the five 95-similarity
alternatives. -/
theorem c9_theorem (family : String) (qf : Option (List ℚ))
    (db : List FontFeatureEntry) (ov : List NameOverrideAlt)
    (hfam : family ≠ "")
    (hov : findNameOverride (lookupName family db) = some ov) :
    ∃ alts, processMatch family qf db = .success "name-override" none alts ∧
      alts.map (·.similarity) =
        (match findInDatabase family db with
         | some _ => 100 :: List.replicate 5 95
         | none => List.replicate 5 95) := by
  have h5 : ov.length = 5 := findNameOverride_length hov
  have hmap : (ov.map overrideAlt).map (·.similarity) = List.replicate 5 95 := by
    rw [List.map_map, List.eq_replicate_iff]
    refine ⟨by simpa using h5, ?_⟩
    intro b hb
    obtain ⟨x, -, rfl⟩ := List.mem_map.mp hb
    rfl
  cases hdb : findInDatabase family db with
  | some e =>
    refine ⟨⟨e.family, none, 100, exactFreeReason, specimenUrl e.family⟩ :: ov.map overrideAlt,
      ?_, ?_⟩
    · unfold processMatch
      rw [if_neg hfam, hov, hdb]
      rfl
    · simp only [List.map_cons, hmap]
  | none =>
    refine ⟨ov.map overrideAlt, ?_, ?_⟩
    · unfold processMatch
      rw [if_neg hfam, hov, hdb]
      rfl
    · simpa using hmap

theorem c9_theorem_witness :
    ∃ alts, processMatch "Futura PT" none [futuraEntry] =
        .success "name-override" none alts ∧
      alts.map (·.similarity) =
        (match findInDatabase "Futura PT" [futuraEntry] with
         | some _ => 100 :: List.replicate 5 95
         | none => List.replicate 5 95) :=
  c9_theorem "Futura PT" none [futuraEntry] futuraOv (by decide) (by decide)

/-! ## C1: the self-match promotion in the feature-similarity strategy -/

theorem handleOverride_none (qf : Option (List ℚ)) (db : List FontFeatureEntry)
    (c : String) (ex : Option FontFeatureEntry) :
    handleOverride qf db c ex none = handleExact qf db c ex := rfl

/-- If `findInDatabase` found nothing, no catalog entry's normalised family
equals the normalised cleaned family (steps 1 and 2 would have found it). -/
theorem findInDatabase_none {family : String} {db : List FontFeatureEntry}
    (h : findInDatabase family db = none) :
    ∀ e ∈ db, jsNormLC e.family ≠ jsNormLC (cleanFamilyName family) := by
  intro e he heq
  unfold findInDatabase at h
  dsimp only at h
  by_cases hc : jsNormLC (cleanFamilyName family) = jsNormLC family
  · cases h1 : db.find? (fun x => decide (jsNormLC x.family = jsNormLC family)) with
    | some x => rw [h1] at h; exact Option.noConfusion h
    | none =>
      have := List.find?_eq_none.mp h1 e he
      simp only [decide_eq_true_eq] at this
      exact this (heq.trans hc)
  · cases h1 : db.find? (fun x => decide (jsNormLC x.family = jsNormLC family)) with
    | some x => rw [h1] at h; exact Option.noConfusion h
    | none =>
      rw [h1] at h
      rw [if_pos hc] at h
      cases h2 : db.find?
          (fun x => decide (jsNormLC x.family = jsNormLC (cleanFamilyName family))) with
      | some x => rw [h2] at h; exact Option.noConfusion h
      | none =>
        have := List.find?_eq_none.mp h2 e he
        simp only [decide_eq_true_eq] at this
        exact this heq

/-- No `findSimilar` result can carry the cleaned query family when the
exact/fuzzy lookup found nothing: entries with that normalised family are
excluded by the filter, and would have been exact matches anyway. -/
theorem findSimilar_not_self {family : String} {db : List FontFeatureEntry}
    {qf : List ℚ} {n : ℕ}
    (hdb : findInDatabase family db = none) :
    ∀ r ∈ findSimilar qf db n (some (cleanFamilyName family)),
      jsNormLC r.family ≠ jsNormLC (cleanFamilyName family) := by
  intro r hr
  obtain ⟨e, he, -, hf⟩ := mem_findSimilar hr
  rw [hf]
  exact findInDatabase_none hdb e he

/-- C1 counterexample: the promoted 100-similarity self-match first
alternative never occurs — for every request the feature-similarity
response's first alternative does not carry the cleaned query family at
similarity 100 (the nearest-neighbour search excludes that family, and a
catalog entry with that family would have short-circuited as an exact
match).  This proves the claim's existential part false. -/
theorem c1_counterexample :
    ¬ ∃ (family : String) (qf : List ℚ) (db : List FontFeatureEntry)
        (a : Alt) (rest : List Alt),
      processMatch family (some qf) db =
        .success "feature-similarity" none (a :: rest) ∧
      a.similarity = 100 ∧ jsNormLC a.family = jsNormLC (cleanFamilyName family) := by
  rintro ⟨family, qf, db, a, rest, hresp, hsim, hfamEq⟩
  by_cases hfam : family = ""
  · unfold processMatch at hresp
    rw [if_pos hfam] at hresp
    exact MatchResponse.noConfusion hresp
  unfold processMatch at hresp
  rw [if_neg hfam] at hresp
  cases hov : findNameOverride (lookupName family db) with
  | some ov =>
    rw [hov] at hresp
    simp only [handleOverride] at hresp
    have hm := (MatchResponse.success.injEq _ _ _ _ _ _).mp hresp
    exact absurd hm.1 (by decide)
  | none =>
    rw [hov, handleOverride_none] at hresp
    cases hex : findInDatabase family db with
    | some e =>
      rw [hex] at hresp
      simp only [handleExact] at hresp
      have hm := (MatchResponse.success.injEq _ _ _ _ _ _).mp hresp
      exact absurd hm.1 (by decide)
    | none =>
      rw [hex] at hresp
      rw [show handleExact (some qf) db (cleanFamilyName family) none =
            handleFeature (some qf) db (cleanFamilyName family) from rfl] at hresp
      cases db with
      | nil =>
        rw [show handleFeature (some qf) [] (cleanFamilyName family) =
              .success "no-database"
                (some "Font feature database not built yet. Run: npm run build:features")
                [] from rfl] at hresp
        have hm := (MatchResponse.success.injEq _ _ _ _ _ _).mp hresp
        exact absurd hm.1 (by decide)
      | cons d ds =>
        rw [show handleFeature (some qf) (d :: ds) (cleanFamilyName family) =
              .success "feature-similarity" none
                (featureAlternatives (cleanFamilyName family)
                  (findSimilar qf (d :: ds) 6 (some (cleanFamilyName family)))) from
              rfl] at hresp
        have halts := ((MatchResponse.success.injEq _ _ _ _ _ _).mp hresp).2.2
        cases hm : findSimilar qf (d :: ds) 6 (some (cleanFamilyName family)) with
        | nil =>
          rw [hm] at halts
          exact List.noConfusion halts
        | cons t r2 =>
          rw [hm] at halts
          have hts := findSimilar_not_self hex t
            (by rw [hm]; exact List.mem_cons_self t r2)
          rw [show featureAlternatives (cleanFamilyName family) (t :: r2) =
                ((t :: r2).take 5).map featureAlt from by
              simp only [featureAlternatives]; rw [if_neg hts]] at halts
          rw [List.take_succ_cons, List.map_cons] at halts
          have ha : featureAlt t = a := (List.cons.injEq _ _ _ _).mp halts |>.1
          exact hts (by rw [← ha] at hfamEq; exact hfamEq)

/-- C1 amended: whenever the feature-similarity strategy runs (bytes
decoded, nonempty catalog, no curated override, no exact/fuzzy catalog
hit), the promotion branch is dead and the response is always the plain
mapping of the first five of the six nearest neighbours. -/
theorem c1_theorem (family : String) (qf : List ℚ) (db : List FontFeatureEntry)
    (hfam : family ≠ "") (hdb : db ≠ [])
    (hexact : findInDatabase family db = none)
    (hov : findNameOverride (cleanFamilyName family) = none) :
    processMatch family (some qf) db =
      .success "feature-similarity" none
        (((findSimilar qf db 6 (some (cleanFamilyName family))).take 5).map featureAlt) := by
  obtain ⟨d, ds, rfl⟩ := List.exists_cons_of_ne_nil hdb
  have hlook : lookupName family (d :: ds) = cleanFamilyName family := by
    unfold lookupName
    rw [hexact]
  unfold processMatch
  rw [if_neg hfam, hlook, hov, hexact, handleOverride_none]
  rw [show handleExact (some qf) (d :: ds) (cleanFamilyName family) none =
        handleFeature (some qf) (d :: ds) (cleanFamilyName family) from rfl]
  rw [show handleFeature (some qf) (d :: ds) (cleanFamilyName family) =
        .success "feature-similarity" none
          (featureAlternatives (cleanFamilyName family)
            (findSimilar qf (d :: ds) 6 (some (cleanFamilyName family)))) from rfl]
  cases hm : findSimilar qf (d :: ds) 6 (some (cleanFamilyName family)) with
  | nil => rfl
  | cons t r2 =>
    have hts := findSimilar_not_self hexact t (by rw [hm]; exact List.mem_cons_self t r2)
    rw [show featureAlternatives (cleanFamilyName family) (t :: r2) =
          ((t :: r2).take 5).map featureAlt from by
        simp only [featureAlternatives]; rw [if_neg hts]]

theorem c1_theorem_witness :
    processMatch "Zapfino" (some []) [interEntry] =
      .success "feature-similarity" none
        (((findSimilar [] [interEntry] 6 (some (cleanFamilyName "Zapfino"))).take 5).map
          featureAlt) :=
  c1_theorem "Zapfino" [] [interEntry] (by decide) (by decide) (by decide) (by decide)

end FontStealer
